import Mathlib

/-!
Shallow embedding of `b2c.py` (a Banshee → Clementine music-library migrator)
and proofs about the claims of its specification.

Modelling conventions:
* Python 2 byte strings are modelled as `List Char`; theorems that depend on the
  byte-string nature of Python 2 `str` carry a `c.toNat < 256` hypothesis.
* SQLite `NULL`-able integer columns are `Option Int`; SQL three-valued logic is
  modelled explicitly (`sqlNeq`, `tvOr`).
* Python exceptions are modelled with `Except PyExc`; the two exception kinds the
  analysed paths can raise are `AttributeError` (method call on `None`) and
  `ValueError` (the explicit `raise ValueError` in `_get_clementine_library_id`).
* The out-of-scope OS wrappers (`os.path.isfile`, `mimetypes.guess_type`) are
  parameters of the functions that call them.
-/

namespace B2C

/-- Python exceptions raised on the modelled code paths. -/
inductive PyExc where
  | attributeError
  | valueError
deriving DecidableEq

/-! ## Percent encoding: Python 2 `urllib.quote` / `urllib.unquote` -/

/-- Characters `urllib.quote` leaves unescaped with the default `safe='/'`:
`always_safe` (letters, digits, `_.-`) plus `/`. -/
def isSafeChar (c : Char) : Bool :=
  c.isAlpha || c.isDigit || c = '_' || c = '.' || c = '-' || c = '/'

/-- Upper-case hex digit of a value `< 16`, as `urllib.quote` produces (`%02X`). -/
def hexDig (n : Nat) : Char :=
  if n < 10 then Char.ofNat (48 + n) else Char.ofNat (55 + n)

/-- Numeric value of a hex digit (either case). -/
def hexVal (c : Char) : Nat :=
  if c.isDigit then c.toNat - 48
  else if 'a' ≤ c ∧ c ≤ 'f' then c.toNat - 87
  else c.toNat - 55

/-- Hex digit of either case, as accepted by `urllib.unquote`'s `_hextochr` table. -/
def isHexDig (c : Char) : Bool :=
  c.isDigit || ('a' ≤ c && c ≤ 'f') || ('A' ≤ c && c ≤ 'F')

/-- `urllib.quote` on a single byte: kept if safe, otherwise `%XX` (upper case). -/
def quoteChar (c : Char) : List Char :=
  if isSafeChar c then [c] else ['%', hexDig (c.toNat / 16 % 16), hexDig (c.toNat % 16)]

/-- Python 2 `urllib.quote(s)` with the default `safe='/'`. -/
def quoteL (l : List Char) : List Char :=
  (l.map quoteChar).flatten

/-- Python 2 `urllib.unquote`: a `%` followed by two hex digits (either case)
decodes to the corresponding byte, any other `%` is kept literally.  This
character-wise scan is equivalent to CPython's split-on-`%` plus the
`_hextochr` two-hex-digit table lookup. -/
def unquoteL : List Char → List Char
  | [] => []
  | c :: a :: b :: rest =>
    if c = '%' && isHexDig a && isHexDig b then
      Char.ofNat (16 * hexVal a + hexVal b) :: unquoteL rest
    else c :: unquoteL (a :: b :: rest)
  | c :: rest => c :: unquoteL rest

/-! ## Substring containment (Python's `in` on strings) and `str.replace` -/

/-- Python's `pat in s` substring test. -/
def containsSeq (pat : List Char) : List Char → Bool
  | [] => pat.isPrefixOf []
  | c :: cs => pat.isPrefixOf (c :: cs) || containsSeq pat cs

/-- Fuel-driven worker for `replaceL`; the fuel is the length of the scanned
list, which bounds the number of scan steps. -/
def replaceAux (pat repl : List Char) : Nat → List Char → List Char
  | 0, l => l
  | _ + 1, [] => []
  | fuel + 1, c :: cs =>
    if !pat.isEmpty && pat.isPrefixOf (c :: cs) then
      repl ++ replaceAux pat repl fuel (List.drop pat.length (c :: cs))
    else c :: replaceAux pat repl fuel cs

/-- Python's `s.replace(pat, repl)`: replace every (non-overlapping, leftmost)
occurrence of `pat` by `repl`. -/
def replaceL (pat repl l : List Char) : List Char :=
  replaceAux pat repl l.length l

/-! ## The PathCodec functions of `b2c.py` -/

/-- `B2C._check_urlencode`: the heuristic "already url-encoded" test —
true iff the string contains `%20` and no literal space. -/
def check_urlencode (path : List Char) : Bool :=
  if containsSeq "%20".data path && !containsSeq " ".data path then true else false

/-- `B2C._uri_to_path`: percent-decode, then strip 7 characters when the result
starts with `file:///`. -/
def uri_to_path (uri : List Char) : List Char :=
  let u := unquoteL uri
  if "file:///".data.isPrefixOf u then u.drop 7 else u

/-- `B2C._get_banshee_filename`: quote unless the path already looks
url-encoded, then ensure a `file://` prefix. -/
def get_banshee_filename (path : List Char) : List Char :=
  let p1 := if check_urlencode path then path else quoteL path
  if "file://".data.isPrefixOf p1 then p1 else "file://".data ++ p1

/-- `B2C._get_clementine_filename`: like `get_banshee_filename`, then replace
the percent encodings of `, ( ) ' & + ! ; = ~ @ $` by the literal characters
(Clementine stores these unencoded). -/
def get_clementine_filename (path : List Char) : List Char :=
  let p1 := if check_urlencode path then path else quoteL path
  let p2 := if "file://".data.isPrefixOf p1 then p1 else "file://".data ++ p1
  replaceL "%24".data "$".data
    (replaceL "%40".data "@".data
      (replaceL "%7E".data "~".data
        (replaceL "%3D".data "=".data
          (replaceL "%3B".data ";".data
            (replaceL "%21".data "!".data
              (replaceL "%2B".data "+".data
                (replaceL "%26".data "&".data
                  (replaceL "%27".data [Char.ofNat 39]
                    (replaceL "%29".data ")".data
                      (replaceL "%28".data "(".data
                        (replaceL "%2C".data ",".data p2)))))))))))

/-- The fixed reverse-substitution table of `_get_clementine_filename`:
percent encodings of comma, parentheses, apostrophe, ampersand, plus,
exclamation mark, semicolon, equals, tilde, at-sign, dollar-sign. -/
def specialPairs : List (List Char × List Char) :=
  [("%2C".data, ",".data), ("%28".data, "(".data), ("%29".data, ")".data),
   ("%27".data, [Char.ofNat 39]), ("%26".data, "&".data), ("%2B".data, "+".data),
   ("%21".data, "!".data), ("%3B".data, ";".data), ("%3D".data, "=".data),
   ("%7E".data, "~".data), ("%40".data, "@".data), ("%24".data, "$".data)]

/-- The spec's description of `encodeForTarget`, assembled as a pipeline:
percent-encode unless the input already looks url-encoded, ensure a `file://`
scheme prefix, then reverse-substitute exactly the pairs of `specialPairs`. -/
def encodeForTargetSpec (path : List Char) : List Char :=
  let encoded := if check_urlencode path then path else quoteL path
  let withScheme :=
    if "file://".data.isPrefixOf encoded then encoded else "file://".data ++ encoded
  specialPairs.foldl (fun s pr => replaceL pr.1 pr.2 s) withScheme

/-- A "valid filesystem path" for the migrator's domain: a nonempty absolute
path made of non-NUL bytes (Python 2 strings are byte strings). -/
def ValidPath (p : List Char) : Prop :=
  p ≠ [] ∧ p.head? = some '/' ∧ ∀ c ∈ p, c.toNat < 256 ∧ c ≠ Char.ofNat 0

/-! ## Helper lemmas about the codec -/

theorem isPrefixOf_iff_exists (pat : List Char) (l : List Char) :
    pat.isPrefixOf l = true ↔ ∃ t, l = pat ++ t := by
  rw [List.isPrefixOf_iff_prefix]
  constructor
  · rintro ⟨t, ht⟩; exact ⟨t, ht.symm⟩
  · rintro ⟨t, ht⟩; exact ⟨t, ht.symm⟩

theorem containsSeq_iff (pat l : List Char) :
    containsSeq pat l = true ↔ ∃ s t, l = s ++ pat ++ t := by
  induction l with
  | nil =>
    simp only [containsSeq, isPrefixOf_iff_exists]
    constructor
    · rintro ⟨t, ht⟩; exact ⟨[], t, ht⟩
    · rintro ⟨s, t, hst⟩
      rcases s with - | ⟨c, s⟩
      · exact ⟨t, hst⟩
      · simp at hst
  | cons c cs ih =>
    simp only [containsSeq, Bool.or_eq_true, isPrefixOf_iff_exists, ih]
    constructor
    · rintro (⟨t, ht⟩ | ⟨s, t, hst⟩)
      · exact ⟨[], t, ht⟩
      · exact ⟨c :: s, t, by simp [hst]⟩
    · rintro ⟨s, t, hst⟩
      rcases s with - | ⟨c', s⟩
      · exact .inl ⟨t, hst⟩
      · simp only [List.cons_append, List.cons.injEq] at hst
        exact .inr ⟨s, t, hst.2⟩

theorem containsSeq_singleton (c : Char) (l : List Char) :
    containsSeq [c] l = true ↔ c ∈ l := by
  rw [containsSeq_iff]
  constructor
  · rintro ⟨s, t, rfl⟩; simp
  · intro h
    obtain ⟨s, t, rfl⟩ := List.append_of_mem h
    exact ⟨s, t, by simp⟩

theorem check_urlencode_eq (s : List Char) :
    check_urlencode s = (containsSeq "%20".data s && !containsSeq " ".data s) := by
  unfold check_urlencode
  split <;> simp_all

theorem hex_digit_roundtrip : ∀ n < 16, hexVal (hexDig n) = n ∧ isHexDig (hexDig n) = true := by
  decide

theorem unquoteL_cons_of_ne (c : Char) (h : c ≠ '%') (l : List Char) :
    unquoteL (c :: l) = c :: unquoteL l := by
  match l with
  | [] => rfl
  | [a] => rfl
  | a :: b :: rest =>
    rw [unquoteL, if_neg]
    simp [h]

theorem unquoteL_escape (a b : Char) (l : List Char) (h : (isHexDig a && isHexDig b) = true) :
    unquoteL ('%' :: a :: b :: l) = Char.ofNat (16 * hexVal a + hexVal b) :: unquoteL l := by
  rw [unquoteL, if_pos (by simp_all)]

theorem unquote_quote (l : List Char) (h : ∀ c ∈ l, c.toNat < 256) :
    unquoteL (quoteL l) = l := by
  induction l with
  | nil => rfl
  | cons c cs ih =>
    have hq : quoteL (c :: cs) = quoteChar c ++ quoteL cs := by simp [quoteL]
    have hc : c.toNat < 256 := (h c (by simp))
    have ih' := ih (fun x hx => h x (by simp [hx]))
    by_cases hs : isSafeChar c = true
    · have : quoteChar c = [c] := by simp [quoteChar, hs]
      rw [hq, this]
      have hne : c ≠ '%' := by
        rintro rfl; exact absurd hs (by decide)
      simpa [unquoteL_cons_of_ne c hne] using ih'
    · have : quoteChar c = ['%', hexDig (c.toNat / 16 % 16), hexDig (c.toNat % 16)] := by
        simp [quoteChar, hs]
      rw [hq, this]
      have h1 := hex_digit_roundtrip (c.toNat / 16 % 16) (Nat.mod_lt _ (by omega))
      have h2 := hex_digit_roundtrip (c.toNat % 16) (Nat.mod_lt _ (by omega))
      simp only [List.cons_append, List.nil_append]
      rw [unquoteL_escape _ _ _ (by simp [h1.2, h2.2])]
      rw [h1.1, h2.1]
      have : 16 * (c.toNat / 16 % 16) + c.toNat % 16 = c.toNat := by omega
      rw [this, Char.ofNat_toNat, ih']

theorem unquoteL_scheme (l : List Char) :
    unquoteL ("file://".data ++ l) = "file://".data ++ unquoteL l := by
  show unquoteL ('f' :: 'i' :: 'l' :: 'e' :: ':' :: '/' :: '/' :: l) = _
  rw [unquoteL_cons_of_ne 'f' (by decide), unquoteL_cons_of_ne 'i' (by decide),
      unquoteL_cons_of_ne 'l' (by decide), unquoteL_cons_of_ne 'e' (by decide),
      unquoteL_cons_of_ne ':' (by decide), unquoteL_cons_of_ne '/' (by decide),
      unquoteL_cons_of_ne '/' (by decide)]
  rfl

/-! ## Claim C1: `_get_clementine_filename` -/

set_option maxHeartbeats 2000000 in
/-- C1: `_get_clementine_filename` percent-encodes its input when
`_check_urlencode` is false, ensures a `file://` scheme prefix, and then
reverse-substitutes exactly the percent-encodings listed in `specialPairs`
(comma, both parentheses, apostrophe, ampersand, plus, exclamation mark,
semicolon, equals, tilde, at-sign, dollar-sign); on the spec's example path
the result is `file:///music/AC&DC%20(Live),%20track.mp3`, in which `&`, `(`,
`)` and `,` are literal while the spaces stay percent-encoded. -/
theorem get_clementine_filename_spec :
    (∀ p, get_clementine_filename p = encodeForTargetSpec p) ∧
    get_clementine_filename "/music/AC&DC (Live), track.mp3".data
      = "file:///music/AC&DC%20(Live),%20track.mp3".data := by
  constructor
  · intro p
    unfold get_clementine_filename encodeForTargetSpec specialPairs
    simp only [List.foldl]
  · decide

/-! ## Claim C2: `_check_urlencode` -/

/-- C2: `_check_urlencode` returns true exactly when the string contains the
substring `%20` and does not contain a literal space; it accepts
`/music/Artist%20Name/track.mp3` and rejects `/music/Artist Name/track.mp3`. -/
theorem check_urlencode_spec :
    (∀ s : List Char, check_urlencode s = true ↔
      ((∃ u v, s = u ++ "%20".data ++ v) ∧ ' ' ∉ s)) ∧
    check_urlencode "/music/Artist%20Name/track.mp3".data = true ∧
    check_urlencode "/music/Artist Name/track.mp3".data = false := by
  refine ⟨fun s => ?_, by decide, by decide⟩
  rw [check_urlencode_eq]
  have hsp : (" ".data : List Char) = [' '] := rfl
  rw [Bool.and_eq_true, Bool.not_eq_true', containsSeq_iff, hsp]
  constructor
  · rintro ⟨h1, h2⟩
    refine ⟨h1, fun hm => ?_⟩
    rw [← containsSeq_singleton ' ' s] at hm
    simp [hm] at h2
  · rintro ⟨h1, h2⟩
    refine ⟨h1, ?_⟩
    rw [← Bool.not_eq_true, containsSeq_singleton]
    exact h2

/-! ## Claim C6: the decode/encode round trip -/

/-- C6 counterexample: `/a%20b` is a valid absolute byte path (a file literally
named `a%20b`), but `_check_urlencode` misfires on it (it contains `%20` and no
space), so `_get_banshee_filename` skips quoting and `_uri_to_path` then decodes
the `%20` that was never an encoding: the round trip returns `/a b`. -/
theorem roundtrip_cex :
    ValidPath "/a%20b".data ∧
    uri_to_path (get_banshee_filename "/a%20b".data) ≠ "/a%20b".data := by
  constructor
  · refine ⟨by decide, by decide, ?_⟩
    decide
  · decide

/-- C6 (amended): for every valid absolute byte path on which the
`_check_urlencode` heuristic answers false, decoding the source-encoded form
returns the original path: `_uri_to_path (_get_banshee_filename p) = p`. -/
theorem roundtrip_amended (p : List Char) (hv : ValidPath p)
    (hchk : check_urlencode p = false) :
    uri_to_path (get_banshee_filename p) = p := by
  obtain ⟨hne, hhd, hbytes⟩ := hv
  obtain ⟨c, p', rfl⟩ : ∃ c p', p = c :: p' := by
    cases p with
    | nil => exact absurd rfl hne
    | cons c p' => exact ⟨c, p', rfl⟩
  have hc : c = '/' := by simpa using hhd
  subst hc
  have hq : quoteL ('/' :: p') = '/' :: quoteL p' := by
    have : quoteChar '/' = ['/'] := by decide
    simp [quoteL, this]
  have hnotpre : "file://".data.isPrefixOf (quoteL ('/' :: p')) = false := by
    rw [hq]; rfl
  have hgbf : get_banshee_filename ('/' :: p') = "file://".data ++ quoteL ('/' :: p') := by
    unfold get_banshee_filename
    rw [hchk]
    simp only [Bool.false_eq_true, if_false, hnotpre]
  rw [hgbf]
  have hu : unquoteL ("file://".data ++ quoteL ('/' :: p')) = "file://".data ++ '/' :: p' := by
    rw [unquoteL_scheme, unquote_quote _ (fun x hx => (hbytes x hx).1)]
  have hpre : "file:///".data.isPrefixOf ("file://".data ++ '/' :: p') = true := by
    simp [List.isPrefixOf]
  simp only [uri_to_path, hu, hpre, if_true]
  have h7 : (7 : Nat) = "file://".data.length := rfl
  rw [h7, List.drop_left]

/-- C6 witness: the amended round trip at the concrete path `/a b`. -/
theorem roundtrip_amended_witness :
    ValidPath "/a b".data ∧ check_urlencode "/a b".data = false ∧
    uri_to_path (get_banshee_filename "/a b".data) = "/a b".data :=
  ⟨⟨by decide, by decide, by decide⟩, by decide,
    roundtrip_amended _ ⟨by decide, by decide, by decide⟩ (by decide)⟩

/-! ## The Clementine `songs` table and `_update_meta_data` -/

/-- A row of the Clementine `songs` table (the columns this program touches).
The four statistics columns are nullable. -/
structure SongRow where
  rowid : Int
  filename : List Char
  rating : Option Int
  playcount : Option Int
  skipcount : Option Int
  lastplayed : Option Int
deriving DecidableEq

/-- SQL `!=` under three-valued logic: `NULL` on either side gives `NULL`. -/
def sqlNeq : Option Int → Option Int → Option Bool
  | some a, some b => some (decide (a ≠ b))
  | _, _ => none

/-- SQL `OR` under three-valued logic. -/
def tvOr : Option Bool → Option Bool → Option Bool
  | some true, _ => some true
  | _, some true => some true
  | some false, some false => some false
  | _, _ => none

/-- The `WHERE` clause of `_update_meta_data`'s `UPDATE`: `rowid = :rowid` and
the three-valued disjunction of the four `!=` comparisons evaluates to true. -/
def updateHit (row : SongRow) (row_id : Int) (rating playcount skipcount lastplayed : Option Int) :
    Bool :=
  row.rowid == row_id &&
    tvOr (tvOr (tvOr (sqlNeq row.rating rating) (sqlNeq row.playcount playcount))
        (sqlNeq row.skipcount skipcount))
      (sqlNeq row.lastplayed lastplayed) == some true

/-- `B2C._update_meta_data`: the conditional `UPDATE` of the `songs` table.
Returns the table after the statement together with `cursor.rowcount`, the
number of rows the `UPDATE` affected (the code logs "statistics updated"
exactly when this count is nonzero). -/
def update_meta_data (songs : List SongRow) (row_id : Int)
    (rating playcount skipcount lastplayed : Option Int) : List SongRow × Nat :=
  (songs.map fun row =>
    if updateHit row row_id rating playcount skipcount lastplayed then
      { row with rating := rating, playcount := playcount,
                 skipcount := skipcount, lastplayed := lastplayed }
    else row,
   (songs.filter fun row => updateHit row row_id rating playcount skipcount lastplayed).length)

theorem tvOr_eq_some_true (a b : Option Bool) :
    tvOr a b = some true ↔ a = some true ∨ b = some true := by
  rcases a with - | (-|-) <;> rcases b with - | (-|-) <;> simp [tvOr]

theorem sqlNeq_self_ne_true (x : Option Int) : sqlNeq x x ≠ some true := by
  rcases x with - | a <;> simp [sqlNeq]

/-- A field comparison that SQL `!=` can never certify as a difference:
the stored and proposed values are equal, or one of them is `NULL`. -/
def nullOrEq (x v : Option Int) : Prop := x = v ∨ x = none ∨ v = none

instance (x v : Option Int) : Decidable (nullOrEq x v) := by
  unfold nullOrEq
  infer_instance

theorem sqlNeq_ne_true_of_nullOrEq {x v : Option Int} (h : nullOrEq x v) :
    sqlNeq x v ≠ some true := by
  rcases h with rfl | rfl | rfl
  · exact sqlNeq_self_ne_true x
  · simp [sqlNeq]
  · rcases x with - | a <;> simp [sqlNeq]

theorem updateHit_false_of_nullOrEq {row : SongRow} {row_id : Int}
    {rating playcount skipcount lastplayed : Option Int}
    (h : row.rowid = row_id →
      nullOrEq row.rating rating ∧ nullOrEq row.playcount playcount ∧
      nullOrEq row.skipcount skipcount ∧ nullOrEq row.lastplayed lastplayed) :
    updateHit row row_id rating playcount skipcount lastplayed = false := by
  unfold updateHit
  rw [Bool.and_eq_false_iff]
  by_cases hid : row.rowid = row_id
  · obtain ⟨h1, h2, h3, h4⟩ := h hid
    right
    rw [beq_eq_false_iff_ne]
    intro hguard
    rcases (tvOr_eq_some_true _ _).mp hguard with hg | hg
    · rcases (tvOr_eq_some_true _ _).mp hg with hg | hg
      · rcases (tvOr_eq_some_true _ _).mp hg with hg | hg
        · exact sqlNeq_ne_true_of_nullOrEq h1 hg
        · exact sqlNeq_ne_true_of_nullOrEq h2 hg
      · exact sqlNeq_ne_true_of_nullOrEq h3 hg
    · exact sqlNeq_ne_true_of_nullOrEq h4 hg
  · left
    exact beq_eq_false_iff_ne.mpr hid

theorem update_meta_data_noop (songs : List SongRow) (row_id : Int)
    (rating playcount skipcount lastplayed : Option Int)
    (h : ∀ row ∈ songs, updateHit row row_id rating playcount skipcount lastplayed = false) :
    update_meta_data songs row_id rating playcount skipcount lastplayed = (songs, 0) := by
  unfold update_meta_data
  have hmap : (songs.map fun row =>
      if updateHit row row_id rating playcount skipcount lastplayed then
        { row with rating := rating, playcount := playcount,
                   skipcount := skipcount, lastplayed := lastplayed }
      else row) = songs := by
    conv_rhs => rw [← List.map_id songs]
    refine List.map_congr_left fun row hrow => ?_
    rw [h row hrow]
    rfl
  have hfil : (songs.filter fun row =>
      updateHit row row_id rating playcount skipcount lastplayed) = [] :=
    List.filter_eq_nil_iff.mpr fun row hrow => by rw [h row hrow]; exact Bool.false_ne_true
  rw [hmap, hfil]
  rfl

/-! ## Claim C5: idempotence of the stats merge -/

/-- C5: running `_update_meta_data` twice with identical values is idempotent —
if the first call affected at least one row (reported `Updated`), the second
call on the resulting table affects zero rows (reported `Unchanged`) and
leaves every stored `rating`/`playcount`/`skipcount`/`lastplayed` unchanged. -/
theorem update_meta_data_idempotent (songs : List SongRow) (row_id : Int)
    (rating playcount skipcount lastplayed : Option Int)
    (_hupd : (update_meta_data songs row_id rating playcount skipcount lastplayed).2 ≠ 0) :
    update_meta_data (update_meta_data songs row_id rating playcount skipcount lastplayed).1
        row_id rating playcount skipcount lastplayed
      = ((update_meta_data songs row_id rating playcount skipcount lastplayed).1, 0) := by
  apply update_meta_data_noop
  intro row' hrow'
  unfold update_meta_data at hrow'
  rw [List.mem_map] at hrow'
  obtain ⟨row, hrow, rfl⟩ := hrow'
  by_cases hh : updateHit row row_id rating playcount skipcount lastplayed = true
  · rw [if_pos hh]
    exact updateHit_false_of_nullOrEq fun _ => ⟨.inl rfl, .inl rfl, .inl rfl, .inl rfl⟩
  · rw [if_neg hh]
    exact Bool.eq_false_iff.mpr hh

/-- C5 witness: a concrete one-row table where the first merge updates the row
and the second merge with the same values is a no-op. -/
theorem update_meta_data_idempotent_witness :
    (update_meta_data [⟨7, ['f'], some 3, some 8, some 1, some 0⟩] 7
        (some 4) (some 10) (some 1) (some 99)).2 ≠ 0 ∧
    update_meta_data (update_meta_data [⟨7, ['f'], some 3, some 8, some 1, some 0⟩] 7
        (some 4) (some 10) (some 1) (some 99)).1 7 (some 4) (some 10) (some 1) (some 99)
      = ((update_meta_data [⟨7, ['f'], some 3, some 8, some 1, some 0⟩] 7
          (some 4) (some 10) (some 1) (some 99)).1, 0) :=
  ⟨by decide, update_meta_data_idempotent _ _ _ _ _ _ (by decide)⟩

/-! ## Claim C10: `NULL` never satisfies the guard -/

/-- C10: the guard of the conditional update uses SQL `!=` three-valued
semantics, so a comparison involving `NULL` is never satisfied — whenever, for
every row with the targeted rowid, each of the four fields is either equal to
the proposed value or involves a `NULL` on one side, the `UPDATE` affects zero
rows, the merge reports `Unchanged` and the table (in particular every stored
`NULL`) is left unchanged; repeating the call repeats the same no-op. -/
theorem update_meta_data_null_guard (songs : List SongRow) (row_id : Int)
    (rating playcount skipcount lastplayed : Option Int)
    (h : ∀ row ∈ songs, row.rowid = row_id →
      nullOrEq row.rating rating ∧ nullOrEq row.playcount playcount ∧
      nullOrEq row.skipcount skipcount ∧ nullOrEq row.lastplayed lastplayed) :
    update_meta_data songs row_id rating playcount skipcount lastplayed = (songs, 0) :=
  update_meta_data_noop _ _ _ _ _ _ fun row hrow =>
    updateHit_false_of_nullOrEq (h row hrow)

/-- C10 witness: a row whose stored rating is `NULL` while the proposed rating
differs; everything else matches, and the update affects zero rows. -/
theorem update_meta_data_null_guard_witness :
    (∀ row ∈ [(⟨7, ['f'], none, some 8, some 1, some 0⟩ : SongRow)], row.rowid = 7 →
      nullOrEq row.rating (some 4) ∧ nullOrEq row.playcount (some 8) ∧
      nullOrEq row.skipcount (some 1) ∧ nullOrEq row.lastplayed (some 0)) ∧
    update_meta_data [⟨7, ['f'], none, some 8, some 1, some 0⟩] 7
        (some 4) (some 8) (some 1) (some 0)
      = ([⟨7, ['f'], none, some 8, some 1, some 0⟩], 0) :=
  ⟨by decide, update_meta_data_null_guard _ _ _ _ _ _ (by decide)⟩

/-! ## Track resolution: `_is_audio_file`, SQL `LIKE`, `_get_clementine_library_id` -/

/-- ASCII lower-casing, as SQLite's default case-insensitive `LIKE` applies. -/
def lowerAscii (c : Char) : Char :=
  if 'A' ≤ c && c ≤ 'Z' then Char.ofNat (c.toNat + 32) else c

/-- Fuel-driven worker for `likeMatch`; every step shortens pattern or text. -/
def likeAux : Nat → List Char → List Char → Bool
  | 0, _, _ => false
  | fuel + 1, p, t =>
    match p with
    | [] => t.isEmpty
    | pc :: ps =>
      if pc = '%' then
        likeAux fuel ps t ||
          (match t with
           | [] => false
           | _ :: ts => likeAux fuel (pc :: ps) ts)
      else
        match t with
        | [] => false
        | tc :: ts =>
          if pc = '_' then likeAux fuel ps ts
          else lowerAscii pc = lowerAscii tc && likeAux fuel ps ts

/-- SQLite `text LIKE pattern` (default, ASCII-case-insensitive, `%`/`_`
wildcards), as used by the `filename like :filename` queries. -/
def likeMatch (pat text : List Char) : Bool :=
  likeAux (pat.length + text.length + 1) pat text

/-- `B2C._is_audio_file`: `mimetypes.guess_type(path)[0].split('/')[0] == 'audio'`.
The guessed type is an external wrapper, passed as `guess_type`.  When it
returns `None` the attribute access `None.split` raises `AttributeError`. -/
def is_audio_file (guess_type : List Char → Option (List Char)) (path : List Char) :
    Except PyExc Bool :=
  match guess_type path with
  | none => .error .attributeError
  | some t => .ok (decide (t.takeWhile (fun c => c ≠ '/') = "audio".data))

/-- `B2C._get_clementine_library_id`: `SELECT rowid FROM songs WHERE filename
like :filename` with the clementine-encoded path; the first matching row's id,
or `raise ValueError` when no row matches. -/
def get_clementine_library_id (songs : List SongRow) (path : List Char) :
    Except PyExc Int :=
  let fn := get_clementine_filename path
  match songs.filter (fun row => likeMatch fn row.filename) with
  | [] => .error .valueError
  | row :: _ => .ok row.rowid

/-- Outcome of one statistics-loop iteration that did not raise. -/
inductive StepNote where
  | updated
  | unchanged
  | notAFile
deriving DecidableEq

/-- One iteration of the `update_stats` loop body of `B2C.run` for a source
track: `item['uri'] is None` only logs a warning, after which
`_uri_to_path(None)` is still called and raises `AttributeError`; otherwise the
path is checked with `os.path.isfile` (parameter `isfile`) and
`_is_audio_file`, resolved against the `songs` table, and the conditional
update runs.  The `if row_id is None` branch of the source is dead code:
`_get_clementine_library_id` never returns `None`, it raises instead. -/
def statsItemStep (isfile : List Char → Bool)
    (guess_type : List Char → Option (List Char)) (songs : List SongRow)
    (uri : Option (List Char)) (rating playcount skipcount lastplayed : Option Int) :
    Except PyExc (List SongRow × StepNote) :=
  match uri with
  | none => .error .attributeError
  | some u =>
    let path := uri_to_path u
    if isfile path then
      match is_audio_file guess_type path with
      | .error e => .error e
      | .ok true =>
        match get_clementine_library_id songs path with
        | .error e => .error e
        | .ok row_id =>
          let res := update_meta_data songs row_id rating playcount skipcount lastplayed
          .ok (res.1, if res.2 ≠ 0 then .updated else .unchanged)
      | .ok false => .ok (songs, .notAFile)
    else .ok (songs, .notAFile)

/-! ## Claim C3: a `None` uri -/

/-- C3 (refuted by the code, recorded as a code bug): for a source track whose
`uri` is `None`, `run` merely logs a warning and then still calls
`_uri_to_path(None)`, whose `urllib.unquote(None)` does `None.split` and
raises `AttributeError` — the loop iteration raises instead of treating the
track as unresolvable and continuing. -/
theorem statsItemStep_none_uri_raises (isfile : List Char → Bool)
    (guess_type : List Char → Option (List Char)) (songs : List SongRow)
    (rating playcount skipcount lastplayed : Option Int) :
    statsItemStep isfile guess_type songs none rating playcount skipcount lastplayed
      = .error .attributeError := rfl

/-! ## Claim C4: no matching row in the target store -/

/-- C4 (refuted by the code, recorded as a code bug): for an existing audio
file whose clementine-encoded filename matches no row of `songs`,
`_get_clementine_library_id` raises an uncaught `ValueError` — the whole run
aborts on the first such file, instead of logging a warning and continuing
(the caller's `if row_id is None` branch is unreachable). -/
theorem statsItemStep_not_found_raises (isfile : List Char → Bool)
    (guess_type : List Char → Option (List Char)) (songs : List SongRow)
    (u : List Char) (rating playcount skipcount lastplayed : Option Int)
    (hfile : isfile (uri_to_path u) = true)
    (haud : is_audio_file guess_type (uri_to_path u) = .ok true)
    (hnone : ∀ row ∈ songs,
      likeMatch (get_clementine_filename (uri_to_path u)) row.filename = false) :
    statsItemStep isfile guess_type songs (some u) rating playcount skipcount lastplayed
      = .error .valueError := by
  have hfilter : List.filter
      (fun row => likeMatch (get_clementine_filename (uri_to_path u)) row.filename) songs
        = [] :=
    List.filter_eq_nil_iff.mpr fun row hrow => by
      rw [hnone row hrow]; exact Bool.false_ne_true
  have hlib : get_clementine_library_id songs (uri_to_path u) = .error .valueError := by
    simp only [get_clementine_library_id, hfilter]
  simp only [statsItemStep, hfile, if_true, haud, hlib]

/-- C4 witness: an existing audio file `/a.mp3` against an empty `songs`
table — the step raises `ValueError`. -/
theorem statsItemStep_not_found_raises_witness :
    (fun _ : List Char => true) (uri_to_path "/a.mp3".data) = true ∧
    is_audio_file (fun _ => some "audio/mpeg".data) (uri_to_path "/a.mp3".data) = .ok true ∧
    statsItemStep (fun _ => true) (fun _ => some "audio/mpeg".data) []
        (some "/a.mp3".data) none none none none = .error .valueError :=
  ⟨rfl, rfl,
    statsItemStep_not_found_raises _ _ _ _ _ _ _ _ rfl rfl (by simp)⟩

/-! ## Claim C9: `_is_audio_file` on an unguessable media type -/

/-- C9: when `mimetypes.guess_type` returns no type, `_is_audio_file` raises
`AttributeError` (`None.split('/')`) rather than returning `False`, so the run
aborts on the first such existing file instead of skipping it with a
`NotAudioOrMissing` warning; `_is_audio_file` returns a boolean exactly on
paths with a guessable media type. -/
theorem is_audio_file_raises_on_unguessable :
    (∀ (guess_type : List Char → Option (List Char)) (p : List Char),
      guess_type p = none → is_audio_file guess_type p = .error .attributeError) ∧
    (∀ (isfile : List Char → Bool) (guess_type : List Char → Option (List Char))
      (songs : List SongRow) (u : List Char)
      (rating playcount skipcount lastplayed : Option Int),
      isfile (uri_to_path u) = true → guess_type (uri_to_path u) = none →
      statsItemStep isfile guess_type songs (some u) rating playcount skipcount lastplayed
        = .error .attributeError) ∧
    (∀ (guess_type : List Char → Option (List Char)) (p : List Char),
      (∃ b, is_audio_file guess_type p = .ok b) ↔ guess_type p ≠ none) := by
  refine ⟨fun gt p h => ?_, fun isfile gt songs u r pc sc lp h1 h2 => ?_, fun gt p => ?_⟩
  · unfold is_audio_file
    rw [h]
  · have haud : is_audio_file gt (uri_to_path u) = .error .attributeError := by
      unfold is_audio_file
      rw [h2]
    simp only [statsItemStep, h1, if_true, haud]
  · unfold is_audio_file
    cases h : gt p with
    | none => simp
    | some t => simp

/-- C9 witness: with a guesser that knows no types, `_is_audio_file` raises
and the surrounding loop iteration raises with it. -/
theorem is_audio_file_raises_on_unguessable_witness :
    is_audio_file (fun _ => none) "/a.xyz".data = .error .attributeError ∧
    statsItemStep (fun _ => true) (fun _ => none) [] (some "/a.xyz".data)
        none none none none = .error .attributeError :=
  ⟨is_audio_file_raises_on_unguessable.1 _ _ rfl,
   is_audio_file_raises_on_unguessable.2.1 _ _ _ _ _ _ _ _ rfl rfl⟩

/-! ## Playlist import: `_get_clementine_playlists`, `_parse_playlist`, `run` -/

/-- The mutable clementine-side state the playlist import touches: the `songs`
table (read), the `playlists` table (`name`, `ui_order`), the `playlist_items`
table (`playlist`, `type`, `library_id`), and the in-memory `clem_playlists`
dict (sequential offset → name), modelled as an association list in insertion
order. -/
structure ClemState where
  songs : List SongRow
  playlists : List (List Char × Int)
  playlist_items : List (Int × List Char × Int)
  clem_playlists : List (Int × List Char)
deriving DecidableEq

/-- Insertion into a list kept sorted by `ui_order` (models `ORDER BY ui_order`). -/
def insertByOrder (x : List Char × Int) : List (List Char × Int) → List (List Char × Int)
  | [] => [x]
  | y :: ys => if x.2 < y.2 then x :: y :: ys else y :: insertByOrder x ys

/-- Sort the `playlists` rows by `ui_order`. -/
def sortByOrder (l : List (List Char × Int)) : List (List Char × Int) :=
  l.foldr insertByOrder []

/-- `B2C._get_clementine_playlists`: scan `SELECT name FROM playlists ORDER BY
ui_order` and build `clem_playlists` with sequential offsets starting at 1. -/
def get_clementine_playlists (playlists : List (List Char × Int)) : List (Int × List Char) :=
  (sortByOrder playlists).enum.map fun pr => ((pr.1 : Int) + 1, pr.2.1)

/-- The member loop of `_parse_playlist`: returns `nb_added`, the
`playlist_items` rows inserted (in order; inserts are streamed and, with
`isolation_level = None`, autocommitted, so rows inserted before an exception
persist), and the exception if one was raised. -/
def parseItems (isfile : List Char → Bool) (guess_type : List Char → Option (List Char))
    (songs : List SongRow) (playlist_id : Int) :
    List (Option (List Char)) → Nat × List (Int × List Char × Int) × Option PyExc
  | [] => (0, [], none)
  | uri :: rest =>
    match uri with
    | none => (0, [], some .attributeError)
    | some u =>
      let path := uri_to_path u
      if isfile path then
        match is_audio_file guess_type path with
        | .error e => (0, [], some e)
        | .ok true =>
          match get_clementine_library_id songs path with
          | .error e => (0, [], some e)
          | .ok library_id =>
            let res := parseItems isfile guess_type songs playlist_id rest
            (res.1 + 1, (playlist_id, "Library".data, library_id) :: res.2.1, res.2.2)
        | .ok false => parseItems isfile guess_type songs playlist_id rest
      else parseItems isfile guess_type songs playlist_id rest

/-- `B2C._parse_playlist`: `playlist_id = len(clem_playlists) + 1`; insert a
`playlist_items` row per resolvable member; insert the `playlists` row and
register the name in `clem_playlists` only when `nb_added > 0`.  Returns the
state after the call together with the exception, if any, that escaped it. -/
def parse_playlist (isfile : List Char → Bool)
    (guess_type : List Char → Option (List Char))
    (members : List (Option (List Char))) (playlist : List Char) (st : ClemState) :
    ClemState × Option PyExc :=
  let playlist_id : Int := st.clem_playlists.length + 1
  let res := parseItems isfile guess_type st.songs playlist_id members
  match res.2.2 with
  | some e => ({ st with playlist_items := st.playlist_items ++ res.2.1 }, some e)
  | none =>
    if res.1 > 0 then
      ({ st with playlist_items := st.playlist_items ++ res.2.1,
                 playlists := st.playlists ++ [(playlist, playlist_id)],
                 clem_playlists := st.clem_playlists ++ [(playlist_id, playlist)] }, none)
    else ({ st with playlist_items := st.playlist_items ++ res.2.1 }, none)

/-- The playlist loop of `B2C.run`: skip a source playlist whose name is
already a value of `clem_playlists`, otherwise `_parse_playlist` it; an
uncaught exception aborts the loop. -/
def runPlaylistsLoop (isfile : List Char → Bool)
    (guess_type : List Char → Option (List Char)) :
    List (List Char × List (Option (List Char))) → ClemState → ClemState × Option PyExc
  | [], st => (st, none)
  | (name, members) :: rest, st =>
    if name ∈ st.clem_playlists.map Prod.snd then
      runPlaylistsLoop isfile guess_type rest st
    else
      match parse_playlist isfile guess_type members name st with
      | (st', none) => runPlaylistsLoop isfile guess_type rest st'
      | (st', some e) => (st', some e)

/-- The `import_playlists` phase of `B2C.run`: load `clem_playlists` from the
target store, then process the source playlists in the given order. -/
def runPlaylists (isfile : List Char → Bool)
    (guess_type : List Char → Option (List Char))
    (banPlaylists : List (List Char × List (Option (List Char)))) (st0 : ClemState) :
    ClemState × Option PyExc :=
  runPlaylistsLoop isfile guess_type banPlaylists
    { st0 with clem_playlists := get_clementine_playlists st0.playlists }

/-- Whether one playlist member resolves to a library id (exists, is audio,
and is found in `songs`); every other outcome is a resolution failure. -/
def memberResolves (isfile : List Char → Bool)
    (guess_type : List Char → Option (List Char)) (songs : List SongRow)
    (uri : Option (List Char)) : Option Int :=
  match uri with
  | none => none
  | some u =>
    let path := uri_to_path u
    if isfile path then
      match is_audio_file guess_type path with
      | .ok true =>
        match get_clementine_library_id songs path with
        | .ok library_id => some library_id
        | .error _ => none
      | _ => none
    else none

theorem parseItems_all_fail (isfile : List Char → Bool)
    (guess_type : List Char → Option (List Char)) (songs : List SongRow)
    (playlist_id : Int) :
    ∀ members, (∀ m ∈ members, memberResolves isfile guess_type songs m = none) →
      (parseItems isfile guess_type songs playlist_id members).1 = 0 ∧
      (parseItems isfile guess_type songs playlist_id members).2.1 = [] := by
  intro members
  induction members with
  | nil => intro _; exact ⟨rfl, rfl⟩
  | cons uri rest ih =>
    intro h
    have hhead := h uri (List.mem_cons_self uri rest)
    have htail := fun m hm => h m (List.mem_cons_of_mem uri hm)
    cases uri with
    | none => exact ⟨rfl, rfl⟩
    | some u =>
      by_cases hf : isfile (uri_to_path u) = true
      · cases haud : is_audio_file guess_type (uri_to_path u) with
        | error e =>
          simp only [parseItems, hf, if_true, haud]
          exact ⟨trivial, trivial⟩
        | ok b =>
          cases b with
          | true =>
            cases hlib : get_clementine_library_id songs (uri_to_path u) with
            | error e =>
              simp only [parseItems, hf, if_true, haud, hlib]
              exact ⟨trivial, trivial⟩
            | ok library_id =>
              exfalso
              have hres : memberResolves isfile guess_type songs (some u) = some library_id := by
                simp only [memberResolves, hf, if_true, haud, hlib]
              rw [hhead] at hres
              exact Option.noConfusion hres
          | false =>
            simp only [parseItems, hf, if_true, haud]
            exact ih htail
      · have hf' : isfile (uri_to_path u) = false := Bool.eq_false_iff.mpr hf
        simp only [parseItems, hf', Bool.false_eq_true, if_false]
        exact ih htail

/-- C7: a source playlist all of whose members fail resolution creates no
`playlists` row, inserts no `playlist_items` row and leaves `clem_playlists`
(and the whole clementine-side state) unchanged; contrapositively, a
`playlists` row is written only if at least one member resolved. -/
theorem parse_playlist_all_fail (isfile : List Char → Bool)
    (guess_type : List Char → Option (List Char))
    (members : List (Option (List Char))) (name : List Char) (st : ClemState) :
    ((∀ m ∈ members, memberResolves isfile guess_type st.songs m = none) →
      (parse_playlist isfile guess_type members name st).1 = st) ∧
    ((parse_playlist isfile guess_type members name st).1.playlists ≠ st.playlists →
      ∃ m ∈ members, memberResolves isfile guess_type st.songs m ≠ none) := by
  have hmain : (∀ m ∈ members, memberResolves isfile guess_type st.songs m = none) →
      (parse_playlist isfile guess_type members name st).1 = st := by
    intro h
    obtain ⟨h0, hitems⟩ := parseItems_all_fail isfile guess_type st.songs
      ((st.clem_playlists.length : Int) + 1) members h
    cases herr : (parseItems isfile guess_type st.songs
        ((st.clem_playlists.length : Int) + 1) members).2.2 with
    | some e => simp only [parse_playlist, herr, hitems, List.append_nil]
    | none =>
      simp only [parse_playlist, herr, hitems, List.append_nil, h0, gt_iff_lt,
        lt_self_iff_false, if_false]
  refine ⟨hmain, fun hne => ?_⟩
  by_contra hc
  push_neg at hc
  exact hne (by rw [hmain hc])

/-- C7 witness: one unresolvable member (its file does not exist); the state
is returned unchanged. -/
theorem parse_playlist_all_fail_witness :
    (∀ m ∈ [some "/x.mp3".data],
      memberResolves (fun _ => false) (fun _ => none)
        (ClemState.mk [] [] [] []).songs m = none) ∧
    (parse_playlist (fun _ => false) (fun _ => none) [some "/x.mp3".data]
        "P".data (ClemState.mk [] [] [] [])).1 = ClemState.mk [] [] [] [] :=
  ⟨by decide, (parse_playlist_all_fail _ _ _ _ _).1 (by decide)⟩

theorem insertByOrder_length (x : List Char × Int) (l : List (List Char × Int)) :
    (insertByOrder x l).length = l.length + 1 := by
  induction l with
  | nil => rfl
  | cons y ys ih =>
    unfold insertByOrder
    split
    · simp
    · simp [ih]

theorem sortByOrder_length (l : List (List Char × Int)) :
    (sortByOrder l).length = l.length := by
  induction l with
  | nil => rfl
  | cons x xs ih =>
    show (insertByOrder x (sortByOrder xs)).length = xs.length + 1
    rw [insertByOrder_length, ih]

theorem get_clementine_playlists_length (playlists : List (List Char × Int)) :
    (get_clementine_playlists playlists).length = playlists.length := by
  unfold get_clementine_playlists
  rw [List.length_map, List.enum_length, sortByOrder_length]

/-- Exhaustive effect of one `_parse_playlist` call on the `playlists` table and
the `clem_playlists` dict: either both are untouched, or (only without an
exception) exactly one row named `name` with order `len(clem_playlists) + 1` is
appended to each. -/
theorem parse_playlist_cases (isfile : List Char → Bool)
    (guess_type : List Char → Option (List Char))
    (members : List (Option (List Char))) (name : List Char) (st : ClemState) :
    ((parse_playlist isfile guess_type members name st).1.playlists = st.playlists ∧
     (parse_playlist isfile guess_type members name st).1.clem_playlists
       = st.clem_playlists) ∨
    ((parse_playlist isfile guess_type members name st).2 = none ∧
     (parse_playlist isfile guess_type members name st).1.playlists
       = st.playlists ++ [(name, (st.clem_playlists.length : Int) + 1)] ∧
     (parse_playlist isfile guess_type members name st).1.clem_playlists
       = st.clem_playlists ++ [((st.clem_playlists.length : Int) + 1, name)]) := by
  cases herr : (parseItems isfile guess_type st.songs
      ((st.clem_playlists.length : Int) + 1) members).2.2 with
  | some e =>
    left
    constructor <;> simp only [parse_playlist, herr]
  | none =>
    by_cases hnb : (parseItems isfile guess_type st.songs
        ((st.clem_playlists.length : Int) + 1) members).1 > 0
    · right
      refine ⟨?_, ?_, ?_⟩ <;> simp only [parse_playlist, herr, hnb, if_true]
    · left
      constructor <;> simp only [parse_playlist, herr, hnb, if_false]

/-- Structure of the playlists table after the import loop: only new rows are
appended, and their `ui_order` values are the consecutive integers starting at
`1 + |clem_playlists|`, i.e. each created playlist receives
`1 + len(clem_playlists)` measured at its creation time, so the assigned
values strictly increase across the run. -/
theorem runPlaylistsLoop_orders (isfile : List Char → Bool)
    (guess_type : List Char → Option (List Char)) :
    ∀ (bps : List (List Char × List (Option (List Char)))) (st : ClemState),
      st.clem_playlists.length = st.playlists.length →
      ∃ created,
        (runPlaylistsLoop isfile guess_type bps st).1.playlists
          = st.playlists ++ created ∧
        created.map Prod.snd
          = (List.range created.length).map
              fun i : Nat => (st.playlists.length : Int) + 1 + (i : Int) := by
  intro bps
  induction bps with
  | nil =>
    intro st hlen
    exact ⟨[], by simp [runPlaylistsLoop], by simp⟩
  | cons hd rest ih =>
    intro st hlen
    obtain ⟨name, members⟩ := hd
    by_cases hmem : name ∈ st.clem_playlists.map Prod.snd
    · have hstep : runPlaylistsLoop isfile guess_type ((name, members) :: rest) st
          = runPlaylistsLoop isfile guess_type rest st := by
        simp only [runPlaylistsLoop, hmem, if_true]
      rw [hstep]
      exact ih st hlen
    · rcases hpe : parse_playlist isfile guess_type members name st with ⟨st', e'⟩
      have hcases := parse_playlist_cases isfile guess_type members name st
      rw [hpe] at hcases
      cases e' with
      | some e =>
        have hstep : runPlaylistsLoop isfile guess_type ((name, members) :: rest) st
            = (st', some e) := by
          simp only [runPlaylistsLoop, hmem, if_false, hpe]
        rcases hcases with ⟨hpl, -⟩ | ⟨habs, -, -⟩
        · exact ⟨[], by rw [hstep]; simpa using hpl, by simp⟩
        · exact absurd habs (by simp)
      | none =>
        have hstep : runPlaylistsLoop isfile guess_type ((name, members) :: rest) st
            = runPlaylistsLoop isfile guess_type rest st' := by
          simp only [runPlaylistsLoop, hmem, if_false, hpe]
        rw [hstep]
        rcases hcases with ⟨hpl, hclem⟩ | ⟨-, hpl, hclem⟩
        · have hlen' : st'.clem_playlists.length = st'.playlists.length := by
            rw [hpl, hclem]; exact hlen
          obtain ⟨created, h1, h2⟩ := ih st' hlen'
          exact ⟨created, by rw [h1, hpl], by rw [h2, hpl]⟩
        · have hlen' : st'.clem_playlists.length = st'.playlists.length := by
            rw [hpl, hclem]
            simp [hlen]
          obtain ⟨created', h1, h2⟩ := ih st' hlen'
          refine ⟨(name, (st.clem_playlists.length : Int) + 1) :: created', ?_, ?_⟩
          · rw [h1, hpl, List.append_assoc, List.singleton_append]
          · have hplen : st'.playlists.length = st.playlists.length + 1 := by
              rw [hpl]; simp
            rw [List.map_cons, h2, hplen, List.length_cons, List.range_succ_eq_map,
              List.map_cons, List.map_map]
            congr 1
            · simp [hlen]
            · refine List.map_congr_left fun i _ => ?_
              simp only [Function.comp_apply]
              push_cast
              ring

/-- C8 (amended): within one run every created playlist gets
`ui_order = 1 + |clem_playlists|` at its creation time, so the created rows
carry the consecutive, strictly increasing orders `n0+1, n0+2, …` where `n0`
is the number of pre-existing playlists; provided every pre-existing
`ui_order` is at most `n0` (e.g. the orders are sequential from 1), each
created order is also previously unused.  (Without that proviso the claim
fails: `clem_playlists` is keyed by sequential offsets, not by the actual
stored `ui_order` values.) -/
theorem runPlaylists_orders (isfile : List Char → Bool)
    (guess_type : List Char → Option (List Char))
    (bps : List (List Char × List (Option (List Char)))) (st0 : ClemState)
    (hex : ∀ pr ∈ st0.playlists, pr.2 ≤ (st0.playlists.length : Int)) :
    ∃ created,
      (runPlaylists isfile guess_type bps st0).1.playlists
        = st0.playlists ++ created ∧
      created.map Prod.snd
        = (List.range created.length).map
            (fun i : Nat => (st0.playlists.length : Int) + 1 + (i : Int)) ∧
      ∀ pr ∈ created, pr.2 ∉ st0.playlists.map Prod.snd := by
  have hinit :
      ({ st0 with clem_playlists := get_clementine_playlists st0.playlists }
        : ClemState).clem_playlists.length
      = ({ st0 with clem_playlists := get_clementine_playlists st0.playlists }
        : ClemState).playlists.length := by
    simp [get_clementine_playlists_length]
  obtain ⟨created, h1, h2⟩ := runPlaylistsLoop_orders isfile guess_type bps _ hinit
  have h1' : (runPlaylists isfile guess_type bps st0).1.playlists
      = st0.playlists ++ created := by simpa [runPlaylists] using h1
  have h2' : created.map Prod.snd
      = (List.range created.length).map
          (fun i : Nat => (st0.playlists.length : Int) + 1 + (i : Int)) := by
    simpa using h2
  refine ⟨created, h1', h2', fun pr hpr hmem => ?_⟩
  have hsnd : pr.2 ∈ created.map Prod.snd := List.mem_map.mpr ⟨pr, hpr, rfl⟩
  rw [h2', List.mem_map] at hsnd
  obtain ⟨i, -, hieq⟩ := hsnd
  rw [List.mem_map] at hmem
  obtain ⟨q, hq, hqeq⟩ := hmem
  have hle := hex q hq
  rw [hqeq, ← hieq] at hle
  omega

/-- C8 witness: one created playlist over an empty target playlists table
(order hypothesis vacuous). -/
theorem runPlaylists_orders_witness :
    (∀ pr ∈ (ClemState.mk [⟨1, "file:///a.mp3".data, some 0, some 0, some 0, some 0⟩]
        [] [] []).playlists,
      pr.2 ≤ ((ClemState.mk [⟨1, "file:///a.mp3".data, some 0, some 0, some 0, some 0⟩]
        [] [] []).playlists.length : Int)) ∧
    ∃ created,
      (runPlaylists (fun _ => true) (fun _ => some "audio/mpeg".data)
          [("New".data, [some "/a.mp3".data])]
          (ClemState.mk [⟨1, "file:///a.mp3".data, some 0, some 0, some 0, some 0⟩]
            [] [] [])).1.playlists
        = (ClemState.mk [⟨1, "file:///a.mp3".data, some 0, some 0, some 0, some 0⟩]
            [] [] []).playlists ++ created ∧
      created.map Prod.snd
        = (List.range created.length).map
            (fun i : Nat => ((ClemState.mk [⟨1, "file:///a.mp3".data, some 0, some 0,
                some 0, some 0⟩] [] [] []).playlists.length : Int) + 1 + (i : Int)) ∧
      ∀ pr ∈ created, pr.2 ∉ (ClemState.mk [⟨1, "file:///a.mp3".data, some 0,
          some 0, some 0, some 0⟩] [] [] []).playlists.map Prod.snd :=
  ⟨by simp, runPlaylists_orders _ _ _ _ (by simp)⟩

/-- C8 counterexample: a pre-existing playlist stored with `ui_order = 2` and a
one-playlist import.  `clem_playlists` gets the single sequential key 1, so the
created playlist is assigned `ui_order = 2` — a value already used by the
pre-existing row, refuting the claim that each created order is previously
unused among the target store's existing order values. -/
theorem runPlaylists_order_collision :
    (runPlaylists (fun _ => true) (fun _ => some "audio/mpeg".data)
        [("New".data, [some "/a.mp3".data])]
        (ClemState.mk [⟨1, "file:///a.mp3".data, some 0, some 0, some 0, some 0⟩]
          [("Old".data, 2)] [] [])).1.playlists
      = [("Old".data, 2), ("New".data, 2)] ∧
    (2 : Int) ∈ (ClemState.mk [⟨1, "file:///a.mp3".data, some 0, some 0, some 0, some 0⟩]
        [("Old".data, 2)] [] []).playlists.map Prod.snd :=
  ⟨by decide, by decide⟩

end B2C
